import Mathlib

/-
Shallow embedding of the conversational turn pipeline of src/main.py
(class MemoryAgent): the input sanitizer, the memory-content validator,
the dual-granularity sliding-window rate limiter, and the two graph
nodes retrieve_memory and generate_response.

Strings are modelled as List Char.  Python exceptions are modelled as
Except values; ValueError (the only exception the sanitizer/validator
raise) is Except.error ().  Timestamps (Python time.time) are rationals.
Regular-expression substitution (re.sub with re.IGNORECASE) is modelled
by specialised scanners for the five fixed patterns of the source; the
word-character class is modelled on its ASCII part (alphanumerics and
underscore), and case folding on ASCII letters.
-/

deriving instance DecidableEq for Except

namespace MemAgent

/-- Characters matched by the regex `[\x00-\x1f\x7f-\x9f]` (main.py line 121). -/
def isControlChar (c : Char) : Bool :=
  c.toNat ≤ 0x1f || (0x7f ≤ c.toNat && c.toNat ≤ 0x9f)

/-- `re.sub(r'[\x00-\x1f\x7f-\x9f]', '', text)`: drop all control characters. -/
def stripControl (l : List Char) : List Char :=
  l.filter (fun c => !isControlChar c)

/-- The five characters replaced by Python `html.escape(s, quote=True)`. -/
def isEscapable (c : Char) : Bool :=
  c == '&' || c == '<' || c == '>' || c == '"' || c == Char.ofNat 39

/-- Expansion of one character under `html.escape(s, quote=True)`. -/
def escapeChar (c : Char) : List Char :=
  if c = '&' then "&amp;".data
  else if c = '<' then "&lt;".data
  else if c = '>' then "&gt;".data
  else if c = '"' then "&quot;".data
  else if c = Char.ofNat 39 then "&#x27;".data
  else [c]

/-- `html.escape(s, quote=True)` (main.py line 122).  The sequential
`str.replace` passes of the library function, `&` first, are equivalent
to this character-wise expansion because no expansion of a later pass
appears in the replacement strings. -/
def htmlEscape (l : List Char) : List Char :=
  (l.map escapeChar).flatten

/-- Python whitespace (`str.isspace`), which is both the character class
of `\s` in `re` for str patterns and the default strip set of `str.strip`. -/
def isPyWS (c : Char) : Bool :=
  (0x09 ≤ c.toNat && c.toNat ≤ 0x0d) || c.toNat == 0x20 ||
  (0x1c ≤ c.toNat && c.toNat ≤ 0x1f) || c.toNat == 0x85 || c.toNat == 0xa0 ||
  c.toNat == 0x1680 || (0x2000 ≤ c.toNat && c.toNat ≤ 0x200a) ||
  c.toNat == 0x2028 || c.toNat == 0x2029 || c.toNat == 0x202f ||
  c.toNat == 0x205f || c.toNat == 0x3000

/-- Python `str.strip()` with no arguments. -/
def pyStrip (l : List Char) : List Char :=
  ((l.dropWhile isPyWS).reverse.dropWhile isPyWS).reverse

/-- The `\w` class of `re`, restricted to its ASCII part. -/
def isWordChar (c : Char) : Bool :=
  c.isAlphanum || c == '_'

/-- Case-insensitive literal match: `matchCI pat l` consumes `pat`
(given in lower case) from the front of `l` and returns the remaining
suffix on success. -/
def matchCI : List Char → List Char → Option (List Char)
  | [], rest => some rest
  | _ :: _, [] => none
  | p :: ps, c :: cs => if c.toLower = p then matchCI ps cs else none

def litJS : List Char := "javascript:".data
def litScriptOpen : List Char := "<script".data
def litScriptClose : List Char := "</script>".data
def litOn : List Char := "on".data
def litEval : List Char := "eval".data
def litExec : List Char := "exec".data

/-- Match length at the head of `l`, from the suffix a matcher returned. -/
def matchLen (l : List Char) (r : Option (List Char)) : Option Nat :=
  r.map (fun s => l.length - s.length)

/-- Matcher for `javascript:` at the head of the input. -/
def jsMatch (l : List Char) : Option Nat :=
  matchLen l (matchCI litJS l)

/-- Matcher for `on\w+\s*=` at the head of the input.  The character
classes `\w`, `\s` and the literal `=` are pairwise disjoint, so the
greedy maximal-munch scan below is exactly the backtracking semantics. -/
def onMatch (l : List Char) : Option Nat :=
  match matchCI litOn l with
  | none => none
  | some r1 =>
    if (r1.takeWhile isWordChar).isEmpty then none
    else
      match (r1.dropWhile isWordChar).dropWhile isPyWS with
      | '=' :: r4 => some (l.length - r4.length)
      | _ => none

/-- Matcher for `eval\s*\(` at the head of the input. -/
def evalMatch (l : List Char) : Option Nat :=
  match matchCI litEval l with
  | none => none
  | some r1 =>
    match r1.dropWhile isPyWS with
    | '(' :: r3 => some (l.length - r3.length)
    | _ => none

/-- Matcher for `exec\s*\(` at the head of the input. -/
def execMatch (l : List Char) : Option Nat :=
  match matchCI litExec l with
  | none => none
  | some r1 =>
    match r1.dropWhile isPyWS with
    | '(' :: r3 => some (l.length - r3.length)
    | _ => none

/-- Earliest case-insensitive occurrence of `</script>`: returns the
suffix after it.  This is the lazy `[\s\S]*?` search. -/
def findClose : List Char → Option (List Char)
  | [] => none
  | c :: rest =>
    match matchCI litScriptClose (c :: rest) with
    | some r => some r
    | none => findClose rest

/-- Matcher for `<script[^>]*>[\s\S]*?</script>` at the head of the
input.  `[^>]*` is a maximal run of non-`>` characters followed by a
mandatory `>` (no backtracking possible since `>` is excluded from the
class), then the lazy body up to the earliest closing tag. -/
def scriptMatch (l : List Char) : Option Nat :=
  match matchCI litScriptOpen l with
  | none => none
  | some r1 =>
    match r1.dropWhile (fun c => c != '>') with
    | '>' :: r3 =>
      match findClose r3 with
      | some r4 => some (l.length - r4.length)
      | none => none
    | _ => none

/-- One `re.sub(pattern, '', s)` pass: scan left to right, at each
position try the matcher; on a match of length `n ≥ 1` drop the matched
span and continue after it, otherwise keep the character.  Fuel bounds
the recursion; `scrub` supplies fuel equal to the input length, which
suffices because every step consumes at least one character. -/
def scrubFuel (m : List Char → Option Nat) : Nat → List Char → List Char
  | _, [] => []
  | 0, l => l
  | fuel + 1, c :: rest =>
    match m (c :: rest) with
    | some n => scrubFuel m fuel (rest.drop (n - 1))
    | none => c :: scrubFuel m fuel rest

def scrub (m : List Char → Option Nat) (l : List Char) : List Char :=
  scrubFuel m l.length l

/-- The `for pattern in dangerous_patterns: sanitized = re.sub(...)`
loop of main.py lines 125-134, in source order: script block, then
`javascript:`, then `on\w+\s*=`, then `eval\s*\(`, then `exec\s*\(`. -/
def removeDangerous (l : List Char) : List Char :=
  scrub execMatch (scrub evalMatch (scrub onMatch (scrub jsMatch (scrub scriptMatch l))))

def max_input_length : Nat := 10000
def max_memory_length : Nat := 5000

/-- Result of `_sanitize_input`: the returned text together with whether
the security-audit warning of line 138 was emitted. -/
structure SanResult where
  out : List Char
  audited : Bool
deriving DecidableEq

/-- The value of the `sanitized` variable after the pattern-removal
loop (main.py line 134), before the final `.strip()`. -/
def preStrip (text : List Char) : List Char :=
  removeDangerous (htmlEscape (stripControl text))

/-- The string `_sanitize_input` returns (line 140). -/
def sanOut (text : List Char) : List Char :=
  pyStrip (preStrip text)

/-- `MemoryAgent._sanitize_input` (main.py lines 110-140).  The error is
the ValueError raised for over-long input; the audit flag is the line
137 comparison of the pattern-removal output against the raw input. -/
def _sanitize_input (text : List Char) : Except Unit SanResult :=
  if max_input_length < text.length then Except.error ()
  else Except.ok ⟨sanOut text, decide (preStrip text ≠ text)⟩

def truncMarker : List Char := "...[truncated]".data

/-- The truncation step of `_validate_memory_content` (main.py 147-149). -/
def truncatedOf (content : List Char) : List Char :=
  if max_memory_length < content.length
  then content.take max_memory_length ++ truncMarker
  else content

/-- `MemoryAgent._validate_memory_content` (main.py lines 142-152). -/
def _validate_memory_content (content : List Char) : Except Unit SanResult :=
  _sanitize_input (truncatedOf content)

def requests_per_minute : Nat := 20
def requests_per_hour : Nat := 100

/-- One user's entry of `self.user_requests`: the two timestamp deques,
oldest first (appends at the back, eviction pops the front). -/
structure RateState where
  minuteQ : List ℚ
  hourQ : List ℚ
deriving DecidableEq

def emptyRateState : RateState := ⟨[], []⟩

/-- `MemoryAgent._check_rate_limit` (main.py lines 154-180) for one
user, at current time `t`: evict expired entries from both queues (the
while loops pop from the front until the head is within the horizon),
then reject if either evicted queue has reached its ceiling, otherwise
append `t` to both queues and admit. -/
def _check_rate_limit (st : RateState) (t : ℚ) : Bool × RateState :=
  let hq := st.hourQ.dropWhile (fun e => decide (3600 < t - e))
  let mq := st.minuteQ.dropWhile (fun e => decide (60 < t - e))
  if requests_per_minute ≤ mq.length then (false, ⟨mq, hq⟩)
  else if requests_per_hour ≤ hq.length then (false, ⟨mq, hq⟩)
  else (true, ⟨mq ++ [t], hq ++ [t]⟩)

/-- Consecutive `_check_rate_limit` calls for one user at the given
times, returning the admission results and the final queues. -/
def runAdmits : List ℚ → RateState → List Bool × RateState
  | [], st => ([], st)
  | t :: ts, st =>
    let r := _check_rate_limit st t
    let rest := runAdmits ts r.2
    (r.1 :: rest.1, rest.2)

inductive Role where
  | user
  | assistant
deriving DecidableEq

/-- One chat message, as the `{"role": ..., "content": ...}` dicts. -/
structure Message where
  role : Role
  content : List Char
deriving DecidableEq

/-- A record returned by `Memory.search`; only the `memory` field is
used by the pipeline (provider metadata is irrelevant to it and elided;
the model only feeds well-shaped records, so the `isinstance(memory,
dict) and 'memory' in memory` guard of line 207 always passes). -/
structure MemRec where
  memory : List Char
deriving DecidableEq

/-- The `memory_retrieved` dict produced by `retrieve_memory`.  The
non-rate-limited branches of the source omit the `rate_limited` key,
which `generate_response` reads back with default `False`; the model
stores that default explicitly. -/
structure MemorySnapshot where
  memories : List MemRec
  count : Nat
  rate_limited : Bool
deriving DecidableEq

/-- The `AgentState` TypedDict (main.py lines 28-31). -/
structure AgentState where
  messages : List Message
  user_id : List Char
  memory_retrieved : Option MemorySnapshot
deriving DecidableEq

/-- A Python exception thrown by a collaborator, classified by whether
an `except ValueError` handler would catch it. -/
inductive PyErr where
  | valueError
  | other
deriving DecidableEq

/-- `messages[-1].content if messages else ""`. -/
def lastContent (msgs : List Message) : List Char :=
  match msgs.getLast? with
  | some m => m.content
  | none => []

/-- `MemoryAgent.retrieve_memory` (main.py lines 182-228) for one user,
with the per-user rate queues and the clock passed explicitly and the
memory store's `search` as a function that may raise.  Returns the
`memory_retrieved` snapshot and the updated rate queues. -/
def retrieve_memory
    (search : List Char → List Char → Except PyErr (List MemRec))
    (uid : List Char) (msgs : List Message) (rl : RateState) (t : ℚ) :
    MemorySnapshot × RateState :=
  let last := lastContent msgs
  let r := _check_rate_limit rl t
  if r.1 then
    match _sanitize_input last with
    | Except.error _ => (⟨[], 0, false⟩, r.2)
    | Except.ok q =>
      match search q.out uid with
      | Except.error _ => (⟨[], 0, false⟩, r.2)
      | Except.ok mems =>
        let validated := mems.filterMap (fun m =>
          match _validate_memory_content m.memory with
          | Except.ok v => some ⟨v.out⟩
          | Except.error _ => none)
        (⟨validated, validated.length, false⟩, r.2)
  else (⟨[], 0, true⟩, r.2)

def rateLimitMessage : List Char :=
  "I apologize, but you\x27ve exceeded the rate limit. Please wait a moment before sending another message.".data

def invalidContentMessage : List Char :=
  "I\x27m sorry, but your message contains invalid content. Please try again with a different message.".data

def techDifficultiesMessage : List Char :=
  "I apologize, but I\x27m experiencing technical difficulties. Please try again later.".data

/-- The memory-context block of main.py lines 244-248. -/
def memoryContext (memories : List MemRec) : List Char :=
  if memories.isEmpty then []
  else
    "\n\nRelevant memories from previous conversations:\n".data ++
      ((memories.take 3).map (fun m => "- ".data ++ m.memory ++ "\n".data)).flatten

/-- The f-string system prompt of main.py lines 261-264. -/
def systemPromptOf (memories : List MemRec) : List Char :=
  "You are a helpful AI assistant with access to conversation history and memories. \n        Use the provided memories to give more personalized and contextual responses.".data ++
    memoryContext memories ++
    "\n        \n        Remember to be conversational and reference past interactions when relevant.".data

/-- Outcome of `generate_response`: the returned `messages` list, and
whether the LLM provider and `Memory.add` were invoked. -/
structure GenResult where
  newMessages : List Message
  llmCalled : Bool
  addCalled : Bool
deriving DecidableEq

/-- `MemoryAgent.generate_response` (main.py lines 230-305), with the
LLM provider and `Memory.add` passed as functions that may raise.  The
outer `try` of line 266 spans the provider call, both validations and
the `add` call; its `except Exception` handler yields the canned
technical-difficulties reply.  The inner `except ValueError` of line
292 only intercepts ValueError, so a non-ValueError raised by `add`
escapes to the outer handler. -/
def generate_response
    (llm : List Char → List Char → Except PyErr (List Char))
    (memAdd : List Message → List Char → Except PyErr Unit)
    (st : AgentState) : GenResult :=
  let memory_data := st.memory_retrieved.getD ⟨[], 0, false⟩
  if memory_data.rate_limited then
    ⟨[⟨Role.assistant, rateLimitMessage⟩], false, false⟩
  else
    match _sanitize_input (lastContent st.messages) with
    | Except.error _ => ⟨[⟨Role.assistant, invalidContentMessage⟩], false, false⟩
    | Except.ok r =>
      match llm (systemPromptOf memory_data.memories) r.out with
      | Except.error _ => ⟨[⟨Role.assistant, techDifficultiesMessage⟩], true, false⟩
      | Except.ok assistant_message =>
        match _validate_memory_content assistant_message with
        | Except.error _ => ⟨[⟨Role.assistant, assistant_message⟩], true, false⟩
        | Except.ok sr =>
          match _validate_memory_content r.out with
          | Except.error _ => ⟨[⟨Role.assistant, assistant_message⟩], true, false⟩
          | Except.ok su =>
            match memAdd [⟨Role.user, su.out⟩, ⟨Role.assistant, sr.out⟩] st.user_id with
            | Except.ok _ => ⟨[⟨Role.assistant, assistant_message⟩], true, true⟩
            | Except.error PyErr.valueError =>
              ⟨[⟨Role.assistant, assistant_message⟩], true, true⟩
            | Except.error PyErr.other =>
              ⟨[⟨Role.assistant, techDifficultiesMessage⟩], true, true⟩

/-! ## Helper lemmas -/

lemma truncatedOf_length_le (s : List Char) :
    (truncatedOf s).length ≤ max_memory_length + truncMarker.length := by
  unfold truncatedOf
  split
  · simp only [List.length_append, List.length_take]
    omega
  · rename_i h
    omega

lemma validate_ok (s : List Char) :
    ∃ r, _validate_memory_content s = Except.ok r := by
  have h1 := truncatedOf_length_le s
  have h2 : max_memory_length + truncMarker.length ≤ max_input_length := by decide
  unfold _validate_memory_content _sanitize_input
  rw [if_neg (by omega)]
  exact ⟨_, rfl⟩

/-! ## Claims about the sanitizer scenario and the audit log (C1, C2) -/

/-- C1 counterexample: on the input `<script>alert(1)</script>hello` the
sanitizer does not return `hello`; the claimed output is wrong, because
HTML escaping runs before pattern removal, so the script-block pattern
never matches the escaped text. -/
theorem script_scenario_not_hello :
    (_sanitize_input "<script>alert(1)</script>hello".data).toOption.map SanResult.out ≠
      some "hello".data := by decide

/-- C1 (amended): the input `<script>alert(1)</script>hello` is
sanitized to the HTML-escaped text
`&lt;script&gt;alert(1)&lt;/script&gt;hello` (the script block is
escaped, not removed), and the security-audit log entry is recorded
(audited = true). -/
theorem script_scenario_escaped :
    _sanitize_input "<script>alert(1)</script>hello".data =
      Except.ok ⟨"&lt;script&gt;alert(1)&lt;/script&gt;hello".data, true⟩ := by decide

/-- C2 counterexample: a message containing only a bare `&` (no threat
pattern) does trigger the security-audit entry, because line 137
compares against the raw input, which HTML escaping always changes;
likewise an input consisting of a single control character triggers the
entry although steps 2-3 do not alter the control-stripped text. -/
theorem audit_on_benign_input :
    _sanitize_input "&".data = Except.ok ⟨"&amp;".data, true⟩ ∧
    _sanitize_input "\x01".data = Except.ok ⟨[], true⟩ := by decide

/-! ## Claims about the validator (C8, C10) -/

/-- C8: every input longer than the stored-memory maximum (5000) is
truncated to exactly that length plus the marker, and the result passes
the sanitizer without raising: `_validate_memory_content` returns the
sanitized truncated text. -/
theorem validator_truncation (s : List Char) (h : max_memory_length < s.length) :
    (s.take max_memory_length).length = max_memory_length ∧
    _validate_memory_content s = _sanitize_input (s.take max_memory_length ++ truncMarker) ∧
    ∃ r, _validate_memory_content s = Except.ok r := by
  refine ⟨?_, ?_, validate_ok s⟩
  · simp only [List.length_take]
    omega
  · unfold _validate_memory_content truncatedOf
    rw [if_pos h]

/-- C8 witness at a concrete over-long input. -/
theorem validator_truncation_witness :
    (max_memory_length < (List.replicate 5001 'a').length) ∧
    (((List.replicate 5001 'a').take max_memory_length).length = max_memory_length ∧
      _validate_memory_content (List.replicate 5001 'a') =
        _sanitize_input ((List.replicate 5001 'a').take max_memory_length ++ truncMarker) ∧
      ∃ r, _validate_memory_content (List.replicate 5001 'a') = Except.ok r) :=
  ⟨by simp only [List.length_replicate]; decide,
   validator_truncation (List.replicate 5001 'a')
     (by simp only [List.length_replicate]; decide)⟩

/-- C10: for every string input `_validate_memory_content` returns
normally (never raises): the truncated content is bounded by the
stored-memory maximum plus the marker, which is below the sanitizer's
input limit, so the sanitizer-rejection branch is unreachable. -/
theorem validator_total (s : List Char) :
    (truncatedOf s).length ≤ max_memory_length + truncMarker.length ∧
    max_memory_length + truncMarker.length ≤ max_input_length ∧
    ∃ r, _validate_memory_content s = Except.ok r :=
  ⟨truncatedOf_length_le s, by decide, validate_ok s⟩

/-! ## Claims about the generation stage (C3, C7) -/

/-- C3 counterexample: when the LLM call has succeeded but `Memory.add`
raises a non-ValueError exception, the pipeline does NOT return the
original assistant reply: the outer `except Exception` handler replaces
it with the canned technical-difficulties message. -/
theorem store_failure_replaces_reply :
    generate_response (fun _ _ => Except.ok "hi there".data)
        (fun _ _ => Except.error PyErr.other)
        ⟨[⟨Role.user, "hi".data⟩], "u".data, none⟩ =
      ⟨[⟨Role.assistant, techDifficultiesMessage⟩], true, true⟩ ∧
    techDifficultiesMessage ≠ "hi there".data := by decide

/-- C3 (amended): when the validate/store step fails with a ValueError
(the only exception the inner handler of line 292 catches), the
original assistant reply is still returned; a non-ValueError failure of
`Memory.add` instead yields the technical-difficulties message. -/
theorem store_valueerror_preserves_reply (st : AgentState) (a : List Char)
    (r : SanResult)
    (hrl : (st.memory_retrieved.getD ⟨[], 0, false⟩).rate_limited = false)
    (hs : _sanitize_input (lastContent st.messages) = Except.ok r) :
    generate_response (fun _ _ => Except.ok a)
        (fun _ _ => Except.error PyErr.valueError) st =
      ⟨[⟨Role.assistant, a⟩], true, true⟩ := by
  obtain ⟨ra, hra⟩ := validate_ok a
  obtain ⟨ru, hru⟩ := validate_ok r.out
  simp only [generate_response, hrl, if_false, Bool.false_eq_true, hs, hra, hru]

/-- C3 amended witness at a concrete state and reply. -/
theorem store_valueerror_preserves_reply_witness :
    generate_response (fun _ _ => Except.ok "ok then".data)
        (fun _ _ => Except.error PyErr.valueError)
        ⟨[⟨Role.user, "hi".data⟩], "u".data, none⟩ =
      ⟨[⟨Role.assistant, "ok then".data⟩], true, true⟩ :=
  store_valueerror_preserves_reply ⟨[⟨Role.user, "hi".data⟩], "u".data, none⟩
    "ok then".data ⟨"hi".data, false⟩ (by decide) (by decide)

/-- C7: if the LLM provider call fails, the generation stage returns
the fixed technical-difficulties message as the single new assistant
message and `Memory.add` is not called. -/
theorem llm_failure_canned (st : AgentState)
    (memAdd : List Message → List Char → Except PyErr Unit)
    (e : PyErr) (r : SanResult)
    (hrl : (st.memory_retrieved.getD ⟨[], 0, false⟩).rate_limited = false)
    (hs : _sanitize_input (lastContent st.messages) = Except.ok r) :
    generate_response (fun _ _ => Except.error e) memAdd st =
      ⟨[⟨Role.assistant, techDifficultiesMessage⟩], true, false⟩ := by
  simp only [generate_response, hrl, if_false, Bool.false_eq_true, hs]

/-- C7 witness at a concrete state. -/
theorem llm_failure_canned_witness :
    generate_response (fun _ _ => Except.error PyErr.other)
        (fun _ _ => Except.ok ())
        ⟨[⟨Role.user, "hi".data⟩], "u".data, none⟩ =
      ⟨[⟨Role.assistant, techDifficultiesMessage⟩], true, false⟩ :=
  llm_failure_canned ⟨[⟨Role.user, "hi".data⟩], "u".data, none⟩
    (fun _ _ => Except.ok ()) PyErr.other ⟨"hi".data, false⟩ (by decide) (by decide)

/-! ## Sanitizer non-idempotence (C9 counterexample) -/

/-- C9 counterexample: sanitize is not idempotent on `&`, a string
within the length limit whose escaped form `&amp;` matches no dangerous
pattern (last conjunct): the second pass escapes the `&` of `&amp;`
again, giving `&amp;amp;`. -/
theorem sanitize_not_idempotent :
    _sanitize_input "&".data = Except.ok ⟨"&amp;".data, true⟩ ∧
    _sanitize_input "&amp;".data = Except.ok ⟨"&amp;amp;".data, true⟩ ∧
    "&amp;".data ≠ "&amp;amp;".data ∧
    removeDangerous (htmlEscape "&".data) = htmlEscape "&".data := by decide

/-! ## Claims about the rate limiter (C4, C5, C6) -/

/-- Two timestamps in admission order: nondecreasing and within the
one-minute horizon of each other. -/
def chain60 (a b : ℚ) : Prop := a ≤ b ∧ b - a ≤ 60

instance : DecidableRel chain60 := fun a b => by
  unfold chain60; infer_instance

lemma dropWhile_all_neg {α : Type} (p : α → Bool) :
    ∀ l : List α, (∀ x ∈ l, p x = false) → l.dropWhile p = l
  | [], _ => rfl
  | a :: t, h => by
    rw [List.dropWhile_cons, h a (by simp)]
    simp

lemma pairwise_replicate_self {α : Type} {R : α → α → Prop} {a : α} (h : R a a) :
    ∀ n, List.Pairwise R (List.replicate n a)
  | 0 => List.Pairwise.nil
  | n + 1 => by
    rw [List.replicate_succ]
    exact List.Pairwise.cons
      (fun b hb => (List.eq_of_mem_replicate hb) ▸ h)
      (pairwise_replicate_self h n)

/-- While the ceiling is not reached, every admission within the window
succeeds and just appends its timestamp to both queues. -/
lemma admits_all_true (rest : List ℚ) :
    ∀ done : List ℚ, List.Pairwise chain60 (done ++ rest) →
      done.length + rest.length ≤ requests_per_minute →
      runAdmits rest ⟨done, done⟩ =
        (List.replicate rest.length true, ⟨done ++ rest, done ++ rest⟩) := by
  induction rest with
  | nil => intro done _ _; simp [runAdmits]
  | cons t ts ih =>
    intro done hp hlen
    have hat : ∀ a ∈ done, chain60 a t := by
      intro a ha
      exact (List.pairwise_append.mp hp).2.2 a ha t (by simp)
    have hdw60 : done.dropWhile (fun e => decide (60 < t - e)) = done := by
      refine dropWhile_all_neg _ done (fun x hx => ?_)
      have := (hat x hx).2
      simp only [decide_eq_false_iff_not, not_lt]
      linarith
    have hdw3600 : done.dropWhile (fun e => decide (3600 < t - e)) = done := by
      refine dropWhile_all_neg _ done (fun x hx => ?_)
      have := (hat x hx).2
      simp only [decide_eq_false_iff_not, not_lt]
      linarith
    have hlen' : done.length < requests_per_minute := by
      simp only [List.length_cons] at hlen
      omega
    have hlenh : done.length < requests_per_hour := by
      have : requests_per_minute ≤ requests_per_hour := by decide
      omega
    have hchk : _check_rate_limit ⟨done, done⟩ t = (true, ⟨done ++ [t], done ++ [t]⟩) := by
      unfold _check_rate_limit
      simp only [hdw60, hdw3600]
      rw [if_neg (by omega), if_neg (by omega)]
    have hrec := ih (done ++ [t])
      (by rwa [List.append_assoc, List.singleton_append])
      (by simp only [List.length_append, List.length_cons, List.length_nil]
            at hlen ⊢; omega)
    simp only [runAdmits, hchk, hrec, List.length_cons, List.replicate_succ,
      List.append_assoc, List.singleton_append]

/-- C4: starting from a fresh user, N admissions at nondecreasing times
within one minute all succeed as long as N is at most the per-minute
ceiling (20), and when N equals the ceiling the next admission within
the same minute is rejected. -/
theorem rate_limit_window (ts : List ℚ) (t' : ℚ)
    (hp : List.Pairwise chain60 (ts ++ [t']))
    (hlen : ts.length ≤ requests_per_minute) :
    (runAdmits ts emptyRateState).1 = List.replicate ts.length true ∧
    (ts.length = requests_per_minute →
      (_check_rate_limit (runAdmits ts emptyRateState).2 t').1 = false) := by
  have hp' : List.Pairwise chain60 ts := (List.pairwise_append.mp hp).1
  have h1 := admits_all_true ts [] (by simpa) (by simpa)
  have hruns : runAdmits ts emptyRateState =
      (List.replicate ts.length true, ⟨ts, ts⟩) := by
    simpa [emptyRateState] using h1
  refine ⟨by rw [hruns], fun h20 => ?_⟩
  have hat : ∀ a ∈ ts, chain60 a t' :=
    fun a ha => (List.pairwise_append.mp hp).2.2 a ha t' (by simp)
  have hdw60 : ts.dropWhile (fun e => decide (60 < t' - e)) = ts := by
    refine dropWhile_all_neg _ ts (fun x hx => ?_)
    have := (hat x hx).2
    simp only [decide_eq_false_iff_not, not_lt]
    linarith
  rw [hruns]
  unfold _check_rate_limit
  simp only [hdw60]
  rw [if_pos (le_of_eq h20.symm)]

/-- C4 witness: twenty admissions at time 0 all succeed and the 21st at
time 0 is rejected. -/
theorem rate_limit_window_witness :
    (runAdmits (List.replicate 20 (0 : ℚ)) emptyRateState).1 =
      List.replicate (List.replicate 20 (0 : ℚ)).length true ∧
    ((List.replicate 20 (0 : ℚ)).length = requests_per_minute →
      (_check_rate_limit (runAdmits (List.replicate 20 (0 : ℚ)) emptyRateState).2 0).1 =
        false) :=
  rate_limit_window (List.replicate 20 (0 : ℚ)) 0
    (by
      have : List.replicate 20 (0 : ℚ) ++ [0] = List.replicate 21 (0 : ℚ) :=
        (List.replicate_succ' 20 (0 : ℚ)).symm
      rw [this]
      exact pairwise_replicate_self ⟨le_refl 0, by norm_num⟩ 21)
    (by simp only [List.length_replicate]; decide)

/-- Every element surviving the eviction pass of a sorted queue is
within the horizon. -/
lemma age_bound_after_evict (c t : ℚ) :
    ∀ l : List ℚ, l.Sorted (· ≤ ·) →
      ∀ e ∈ l.dropWhile (fun x => decide (c < t - x)), t - e ≤ c := by
  intro l
  induction l with
  | nil => simp
  | cons a tl ih =>
    intro hs e he
    rw [List.dropWhile_cons] at he
    by_cases hpa : c < t - a
    · rw [if_pos (by simp only [decide_eq_true_eq]; exact hpa)] at he
      exact ih (List.sorted_cons.mp hs).2 e he
    · rw [if_neg (by simp only [decide_eq_true_eq]; exact hpa)] at he
      rcases List.mem_cons.mp he with rfl | htl
      · linarith
      · have := (List.sorted_cons.mp hs).1 e htl
        linarith

/-- C5: a rejected admission appends nothing — the only state change is
the eviction of expired entries; eviction precedes the capacity check,
so (for time-ordered queues) every entry that is counted is within its
window horizon, and the rejection decision is exactly a capacity test
on the evicted queues. -/
theorem rejection_consumes_no_quota (st : RateState) (t : ℚ)
    (hm : st.minuteQ.Sorted (· ≤ ·)) (hh : st.hourQ.Sorted (· ≤ ·)) :
    ((_check_rate_limit st t).1 = false →
      (_check_rate_limit st t).2 =
        ⟨st.minuteQ.dropWhile (fun e => decide (60 < t - e)),
         st.hourQ.dropWhile (fun e => decide (3600 < t - e))⟩) ∧
    (∀ e ∈ st.minuteQ.dropWhile (fun e => decide (60 < t - e)), t - e ≤ 60) ∧
    (∀ e ∈ st.hourQ.dropWhile (fun e => decide (3600 < t - e)), t - e ≤ 3600) ∧
    ((_check_rate_limit st t).1 = false ↔
      requests_per_minute ≤ (st.minuteQ.dropWhile (fun e => decide (60 < t - e))).length ∨
      requests_per_hour ≤ (st.hourQ.dropWhile (fun e => decide (3600 < t - e))).length) := by
  refine ⟨?_, age_bound_after_evict 60 t st.minuteQ hm,
    age_bound_after_evict 3600 t st.hourQ hh, ?_⟩ <;>
    · simp only [_check_rate_limit]
      split_ifs with h1 h2 <;> simp_all

/-- C5 witness at a concrete queue state. -/
theorem rejection_consumes_no_quota_witness :
    ((_check_rate_limit ⟨[(0 : ℚ)], [(0 : ℚ)]⟩ 100).1 = false →
      (_check_rate_limit ⟨[(0 : ℚ)], [(0 : ℚ)]⟩ 100).2 =
        ⟨[(0 : ℚ)].dropWhile (fun e => decide (60 < 100 - e)),
         [(0 : ℚ)].dropWhile (fun e => decide (3600 < 100 - e))⟩) ∧
    (∀ e ∈ [(0 : ℚ)].dropWhile (fun e => decide (60 < 100 - e)), 100 - e ≤ 60) ∧
    (∀ e ∈ [(0 : ℚ)].dropWhile (fun e => decide (3600 < 100 - e)), 100 - e ≤ 3600) ∧
    ((_check_rate_limit ⟨[(0 : ℚ)], [(0 : ℚ)]⟩ 100).1 = false ↔
      requests_per_minute ≤ ([(0 : ℚ)].dropWhile (fun e => decide (60 < 100 - e))).length ∨
      requests_per_hour ≤ ([(0 : ℚ)].dropWhile (fun e => decide (3600 < 100 - e))).length) :=
  rejection_consumes_no_quota ⟨[(0 : ℚ)], [(0 : ℚ)]⟩ 100
    (List.sorted_singleton 0) (List.sorted_singleton 0)

/-- C6: when the retrieval stage marks the turn rate-limited, the
generation stage emits the fixed apology as the single new assistant
message, without calling the LLM provider and without calling
`Memory.add`. -/
theorem rate_limited_short_circuit
    (search : List Char → List Char → Except PyErr (List MemRec))
    (llm : List Char → List Char → Except PyErr (List Char))
    (memAdd : List Message → List Char → Except PyErr Unit)
    (uid : List Char) (msgs : List Message) (rl : RateState) (t : ℚ)
    (h : (_check_rate_limit rl t).1 = false) :
    (retrieve_memory search uid msgs rl t).1 = ⟨[], 0, true⟩ ∧
    generate_response llm memAdd
        ⟨msgs, uid, some (retrieve_memory search uid msgs rl t).1⟩ =
      ⟨[⟨Role.assistant, rateLimitMessage⟩], false, false⟩ := by
  have h1 : (retrieve_memory search uid msgs rl t).1 = ⟨[], 0, true⟩ := by
    unfold retrieve_memory
    simp only [h, Bool.false_eq_true, if_false]
  exact ⟨h1, by rw [h1]; rfl⟩

/-- C6 witness: a user whose minute queue already holds 20 fresh
entries is rejected, and the pipeline answers with the apology without
touching the LLM or the store. -/
theorem rate_limited_short_circuit_witness :
    (retrieve_memory (fun _ _ => Except.ok []) "alice".data
        [⟨Role.user, "hi".data⟩] ⟨List.replicate 20 (0 : ℚ), []⟩ 0).1 =
      ⟨[], 0, true⟩ ∧
    generate_response (fun _ _ => Except.ok "x".data) (fun _ _ => Except.ok ())
        ⟨[⟨Role.user, "hi".data⟩], "alice".data,
          some (retrieve_memory (fun _ _ => Except.ok []) "alice".data
            [⟨Role.user, "hi".data⟩] ⟨List.replicate 20 (0 : ℚ), []⟩ 0).1⟩ =
      ⟨[⟨Role.assistant, rateLimitMessage⟩], false, false⟩ :=
  rate_limited_short_circuit (fun _ _ => Except.ok [])
    (fun _ _ => Except.ok "x".data) (fun _ _ => Except.ok ())
    "alice".data [⟨Role.user, "hi".data⟩] ⟨List.replicate 20 (0 : ℚ), []⟩ 0
    (by
      have hdw : (List.replicate 20 (0 : ℚ)).dropWhile
          (fun e => decide ((60 : ℚ) < 0 - e)) = List.replicate 20 (0 : ℚ) := by
        refine dropWhile_all_neg _ _ (fun x hx => ?_)
        rw [List.eq_of_mem_replicate hx]
        norm_num
      unfold _check_rate_limit
      simp only [hdw]
      rw [if_pos (by simp only [List.length_replicate]; decide)])

/-! ## Structural lemmas about the sanitizer stages -/

lemma stripControl_eq_self {l : List Char} (h : ∀ c ∈ l, isControlChar c = false) :
    stripControl l = l := by
  unfold stripControl
  rw [List.filter_eq_self]
  intro a ha
  simp [h a ha]

lemma stripControl_mem {c : Char} {l : List Char} (hc : c ∈ stripControl l) :
    isControlChar c = false := by
  unfold stripControl at hc
  have := List.of_mem_filter hc
  simpa using this

lemma escapeChar_not_control {c d : Char} (hc : isControlChar c = false)
    (hd : d ∈ escapeChar c) : isControlChar d = false := by
  have h1 : ∀ x ∈ "&amp;".data, isControlChar x = false := by decide
  have h2 : ∀ x ∈ "&lt;".data, isControlChar x = false := by decide
  have h3 : ∀ x ∈ "&gt;".data, isControlChar x = false := by decide
  have h4 : ∀ x ∈ "&quot;".data, isControlChar x = false := by decide
  have h5 : ∀ x ∈ "&#x27;".data, isControlChar x = false := by decide
  unfold escapeChar at hd
  split_ifs at hd
  · exact h1 d hd
  · exact h2 d hd
  · exact h3 d hd
  · exact h4 d hd
  · exact h5 d hd
  · rw [List.mem_singleton.mp hd]; exact hc

lemma htmlEscape_cons (a : Char) (t : List Char) :
    htmlEscape (a :: t) = escapeChar a ++ htmlEscape t := by
  simp [htmlEscape]

lemma htmlEscape_not_control {l : List Char} (h : ∀ c ∈ l, isControlChar c = false) :
    ∀ d ∈ htmlEscape l, isControlChar d = false := by
  induction l with
  | nil => simp [htmlEscape]
  | cons a t ih =>
    intro d hd
    rw [htmlEscape_cons] at hd
    rcases List.mem_append.mp hd with h1 | h2
    · exact escapeChar_not_control (h a (by simp)) h1
    · exact ih (fun c hc => h c (by simp [hc])) d h2

lemma scrubFuel_sublist (m : List Char → Option Nat) :
    ∀ (fuel : Nat) (l : List Char), (scrubFuel m fuel l).Sublist l := by
  intro fuel
  induction fuel with
  | zero =>
    intro l
    cases l with
    | nil => simp only [scrubFuel]; exact List.Sublist.refl _
    | cons c rest => simp only [scrubFuel]; exact List.Sublist.refl _
  | succ n ih =>
    intro l
    cases l with
    | nil => simp only [scrubFuel]; exact List.Sublist.refl _
    | cons c rest =>
      rw [scrubFuel]
      cases hm : m (c :: rest) with
      | none => exact (ih rest).cons₂ c
      | some k =>
        exact ((ih _).trans (List.drop_sublist _ _)).trans (List.sublist_cons_self c rest)

lemma scrub_sublist (m : List Char → Option Nat) (l : List Char) : (scrub m l).Sublist l :=
  scrubFuel_sublist m l.length l

lemma removeDangerous_sublist (l : List Char) : (removeDangerous l).Sublist l := by
  unfold removeDangerous
  exact ((((scrub_sublist _ _).trans (scrub_sublist _ _)).trans
    (scrub_sublist _ _)).trans (scrub_sublist _ _)).trans (scrub_sublist _ _)

lemma pyStrip_sublist (l : List Char) : (pyStrip l).Sublist l := by
  have h1 : (pyStrip l).IsPrefix (l.dropWhile isPyWS) :=
    List.rdropWhile_prefix isPyWS (l.dropWhile isPyWS)
  exact h1.sublist.trans (List.dropWhile_suffix isPyWS).sublist

lemma sanOut_not_control (s : List Char) : ∀ c ∈ sanOut s, isControlChar c = false := by
  intro c hc
  have h1 : c ∈ preStrip s := (pyStrip_sublist _).subset hc
  have h2 : c ∈ htmlEscape (stripControl s) := (removeDangerous_sublist _).subset h1
  exact htmlEscape_not_control (fun d hd => stripControl_mem hd) c h2

lemma dropWhile_pyStrip (l : List Char) : (pyStrip l).dropWhile isPyWS = pyStrip l := by
  have hdd : (l.dropWhile isPyWS).dropWhile isPyWS = l.dropWhile isPyWS :=
    List.dropWhile_idempotent isPyWS l
  cases hy : pyStrip l with
  | nil => simp
  | cons a ytl =>
    have hpre : (pyStrip l).IsPrefix (l.dropWhile isPyWS) :=
      List.rdropWhile_prefix isPyWS (l.dropWhile isPyWS)
    obtain ⟨tl2, htl⟩ := hpre
    rw [hy] at htl
    have hna : isPyWS a = false := by
      have h' := hdd
      rw [← htl, List.cons_append, List.dropWhile_cons] at h'
      by_cases hpa : isPyWS a = true
      · rw [if_pos hpa] at h'
        have hlen1 := congrArg List.length h'
        have hlen2 := (List.dropWhile_suffix (l := ytl ++ tl2) isPyWS).length_le
        simp only [List.length_append, List.length_cons] at hlen1 hlen2
        omega
      · simpa using hpa
    rw [List.dropWhile_cons, hna]
    simp

lemma pyStrip_idem (l : List Char) : pyStrip (pyStrip l) = pyStrip l := by
  show (((pyStrip l).dropWhile isPyWS).reverse.dropWhile isPyWS).reverse = pyStrip l
  rw [dropWhile_pyStrip]
  show List.rdropWhile isPyWS (pyStrip l) = pyStrip l
  exact List.rdropWhile_idempotent isPyWS (l.dropWhile isPyWS)

/-! ## Lemmas about HTML escaping -/

lemma escapeChar_of_not {c : Char} (h : isEscapable c = false) : escapeChar c = [c] := by
  unfold isEscapable at h
  simp only [Bool.or_eq_false_iff, beq_eq_false_iff_ne, ne_eq] at h
  unfold escapeChar
  rw [if_neg h.1.1.1.1, if_neg h.1.1.1.2, if_neg h.1.1.2, if_neg h.1.2, if_neg h.2]

lemma length_escapeChar_pos (c : Char) : 1 ≤ (escapeChar c).length := by
  unfold escapeChar
  split_ifs <;> simp

lemma four_le_length_escapeChar {c : Char} (h : isEscapable c = true) :
    4 ≤ (escapeChar c).length := by
  unfold isEscapable at h
  simp only [Bool.or_eq_true, beq_iff_eq] at h
  rcases h with ((((rfl | rfl) | rfl) | rfl) | rfl) <;> decide

lemma length_le_htmlEscape (l : List Char) : l.length ≤ (htmlEscape l).length := by
  induction l with
  | nil => simp [htmlEscape]
  | cons a t ih =>
    have h1 := length_escapeChar_pos a
    rw [htmlEscape_cons]
    simp only [List.length_append, List.length_cons]
    omega

lemma lt_length_htmlEscape {l : List Char} (h : l.any isEscapable = true) :
    l.length < (htmlEscape l).length := by
  induction l with
  | nil => simp at h
  | cons a t ih =>
    simp only [List.any_cons, Bool.or_eq_true] at h
    rw [htmlEscape_cons]
    simp only [List.length_append, List.length_cons]
    rcases h with ha | ht
    · have h4 := four_le_length_escapeChar ha
      have h2 := length_le_htmlEscape t
      omega
    · have h2 := ih ht
      have h1 := length_escapeChar_pos a
      omega

lemma htmlEscape_of_none {l : List Char} (h : l.any isEscapable = false) :
    htmlEscape l = l := by
  induction l with
  | nil => rfl
  | cons a t ih =>
    simp only [List.any_cons, Bool.or_eq_false_iff] at h
    rw [htmlEscape_cons, escapeChar_of_not h.1, ih h.2, List.singleton_append]

lemma htmlEscape_eq_self_iff (l : List Char) :
    htmlEscape l = l ↔ l.any isEscapable = false := by
  constructor
  · intro he
    by_contra hb
    have hany : l.any isEscapable = true := by simpa using hb
    have := lt_length_htmlEscape hany
    rw [he] at this
    omega
  · exact htmlEscape_of_none

/-! ## The audit condition (C2 amended) -/

/-- C2 (amended): the audit entry is emitted iff the escaped and
pattern-stripped text differs from the raw input — not from the
control-stripped input.  For text without control characters and
without dangerous-pattern matches, the audit therefore fires exactly
when the text contains an HTML-escapable character, so a bare `&` or
`<` does trigger the audit entry. -/
theorem audit_exactly_on_raw_change (s : List Char)
    (h1 : s.length ≤ max_input_length)
    (h2 : stripControl s = s)
    (h3 : removeDangerous (htmlEscape s) = htmlEscape s) :
    _sanitize_input s = Except.ok ⟨pyStrip (htmlEscape s), s.any isEscapable⟩ := by
  unfold _sanitize_input sanOut preStrip
  rw [if_neg (by omega), h2, h3]
  have hflag : decide (htmlEscape s ≠ s) = s.any isEscapable := by
    cases hany : s.any isEscapable
    · simp [(htmlEscape_eq_self_iff s).mpr hany]
    · have hne : htmlEscape s ≠ s := by
        intro he
        have := lt_length_htmlEscape hany
        rw [he] at this
        omega
      simp [hne]
  rw [hflag]

/-- C2 amended witness: a bare `&` triggers the audit entry. -/
theorem audit_exactly_on_raw_change_witness :
    _sanitize_input "&".data =
      Except.ok ⟨pyStrip (htmlEscape "&".data), "&".data.any isEscapable⟩ :=
  audit_exactly_on_raw_change "&".data (by decide) (by decide) (by decide)

/-! ## Conditional idempotence (C9 amended) -/

/-- C9 (amended): the sanitizer is idempotent on inputs within the
length limit whose sanitized output is itself within the length limit,
contains no HTML-escapable character and matches no dangerous pattern
(the bare counterexample being `&`, where the guaranteed escaping step
re-fires on its own output). -/
theorem sanitize_idempotent_on_stable (s : List Char)
    (h1 : s.length ≤ max_input_length)
    (h2 : (sanOut s).length ≤ max_input_length)
    (h3 : (sanOut s).any isEscapable = false)
    (h4 : removeDangerous (sanOut s) = sanOut s) :
    _sanitize_input s = Except.ok ⟨sanOut s, decide (preStrip s ≠ s)⟩ ∧
    _sanitize_input (sanOut s) = Except.ok ⟨sanOut s, false⟩ := by
  constructor
  · unfold _sanitize_input
    rw [if_neg (by omega)]
  · have hsc : stripControl (sanOut s) = sanOut s :=
      stripControl_eq_self (sanOut_not_control s)
    have hesc : htmlEscape (sanOut s) = sanOut s := htmlEscape_of_none h3
    have hpre : preStrip (sanOut s) = sanOut s := by
      unfold preStrip
      rw [hsc, hesc, h4]
    have hout : sanOut (sanOut s) = sanOut s := by
      show pyStrip (preStrip (sanOut s)) = sanOut s
      rw [hpre]
      show pyStrip (pyStrip (preStrip s)) = pyStrip (preStrip s)
      exact pyStrip_idem (preStrip s)
    unfold _sanitize_input
    rw [if_neg (by omega), hpre, hout]
    simp

/-- C9 amended witness: sanitizing `  abc  ` gives `abc`, on which a
second sanitization pass is the identity. -/
theorem sanitize_idempotent_on_stable_witness :
    _sanitize_input "  abc  ".data =
      Except.ok ⟨sanOut "  abc  ".data, decide (preStrip "  abc  ".data ≠ "  abc  ".data)⟩ ∧
    _sanitize_input (sanOut "  abc  ".data) = Except.ok ⟨sanOut "  abc  ".data, false⟩ :=
  sanitize_idempotent_on_stable "  abc  ".data (by decide) (by decide) (by decide) (by decide)

end MemAgent
